import Mathlib

/-!
# Verification of the py2deb conversion core (`py2deb/converter.py`)

This file gives a shallow embedding of the `PackageConverter` class from
`py2deb/converter.py` and settles the frozen claims about it.

Python strings are modelled as lists of code points (`List Nat`); Python
dictionaries as association lists; exceptions as `Except`; the external
collaborators (pip resolver backend, Packager, filesystem) as explicit
function parameters.

The helpers `normalize_package_name`, `compact_repeating_words`,
`PackageRepository` and `TemporaryDirectory` live in `py2deb/utils.py`,
and the per-package class `PackageToConvert` lives in `py2deb/package.py`;
neither file is part of the sources at hand, so those few definitions are
modelled from the specification and marked as such in their doc comments.
-/

/-- A Python string, as its list of code points. -/
abbrev Str := List Nat

/-- Embed a Lean string literal into the model (code points). -/
def strLit (s : String) : Str :=
  s.data.map (fun ch => ch.toNat)

/-- ASCII lower-casing of one code point (model of `str.lower()` for the
ASCII package names py2deb deals with). -/
def low (n : Nat) : Nat :=
  if 65 ≤ n ∧ n ≤ 90 then n + 32 else n

/-- Lower-case a whole string. Model of Python `str.lower()`. -/
def strLower (s : Str) : Str :=
  s.map low

/-- Is this code point in the Debian package-name alphabet used by the
normalizer (lower-case ASCII letter or digit)? -/
def allowed (n : Nat) : Bool :=
  (97 ≤ n && n ≤ 122) || (48 ≤ n && n ≤ 57)

/-- Sanitize one code point: lower-case it and replace it by the separator
`-` (code 45) when it is outside the allowed alphabet. -/
def san (n : Nat) : Nat :=
  if allowed (low n) then low n else 45

/-- Collapse every run of adjacent separators `-` (code 45) into a single
separator. -/
def collapseDashes : Str → Str
  | [] => []
  | [c] => [c]
  | a :: b :: rest =>
    if a = 45 ∧ b = 45 then collapseDashes (b :: rest)
    else a :: collapseDashes (b :: rest)

/-- Modelled from the spec: `normalize_package_name` from `py2deb/utils.py`
(not among the sources). Spec §4.1 step 3: lower-case, replace any run of
characters outside the allowed name alphabet with a single separator,
collapse repeated separators. -/
def normalize_package_name (s : Str) : Str :=
  collapseDashes (s.map san)

/-- Model of Python `str.split('-')`: split on the separator, keeping empty
words (so `""` splits to one empty word, and a leading/trailing separator
yields an empty first/last word). -/
def splitOnDash : Str → List Str
  | [] => [[]]
  | c :: rest =>
    if c = 45 then [] :: splitOnDash rest
    else
      match splitOnDash rest with
      | [] => [[c]]
      | w :: ws => (c :: w) :: ws

/-- Model of Python `'-'.join(words)`. -/
def joinWords : List Str → Str
  | [] => []
  | w :: ws =>
    match ws with
    | [] => w
    | _ :: _ => w ++ 45 :: joinWords ws

/-- Tail worker for `compact_repeating_words`: `prev` is the immediately
preceding (kept or dropped) word. -/
def compactGo (prev : Str) : List Str → List Str
  | [] => []
  | w :: ws =>
    if strLower w = strLower prev then compactGo w ws
    else w :: compactGo w ws

/-- Modelled from the spec: `compact_repeating_words` from
`py2deb/utils.py` (not among the sources). Spec §4.1 step 4: drop a word
that is identical (case-insensitively) to the immediately preceding word. -/
def compact_repeating_words : List Str → List Str
  | [] => []
  | w :: ws => w :: compactGo w ws

/-- Python dictionary lookup `m.get(k)` on an association list. -/
def dictGet (m : List (Str × Str)) (k : Str) : Option Str :=
  (m.find? (fun e => decide (e.1 = k))).map (fun e => e.2)

/-- Python dictionary assignment `m[k] = v` on an association list. -/
def dictInsert (m : List (Str × Str)) (k v : Str) : List (Str × Str) :=
  (k, v) :: m.filter (fun e => decide (¬ e.1 = k))

/-- The mutable state of a `PackageConverter` instance (its `__init__`
fields). The repository is represented by its directory path; the
directory's contents at conversion time are passed to `convert`
separately. The Python fields `name_prefix` and `install_prefix` are
spelled `namePrefix` and `installPrefix` here. -/
structure Converter where
  alternatives : List (Str × Str)
  auto_install : Bool
  installPrefix : Str
  max_download_attempts : Nat
  name_mapping : List (Str × Str)
  namePrefix : Str
  repository : Str
  scripts : List (Str × Str)
deriving Repr, DecidableEq

/-- `PackageConverter.__init__`: the default configuration (the default
repository is the process-wide temporary directory). -/
def initialConverter : Converter :=
  { alternatives := []
    auto_install := false
    installPrefix := strLit "/usr"
    max_download_attempts := 10
    name_mapping := []
    namePrefix := strLit "python"
    repository := strLit "/tmp"
    scripts := [] }

/-- The filesystem facts `set_repository` consults: `os.path.abspath` and
`os.path.isdir`. -/
structure FileSystem where
  abspath : Str → Str
  isdir : Str → Bool

/-- `PackageConverter.set_repository`: make the directory absolute, raise
`ValueError` when it does not exist, otherwise store it. -/
def set_repository (fs : FileSystem) (c : Converter) (directory : Str) :
    Except Str Converter :=
  let d := fs.abspath directory
  if fs.isdir d then Except.ok { c with repository := d }
  else Except.error (strLit "Repository directory doesn't exist!")

/-- `PackageConverter.set_name_prefix` (Python `set_name_prefix`): raise
`ValueError` on an empty name, otherwise store it. -/
def setNamePrefix (c : Converter) (pfx : Str) : Except Str Converter :=
  if pfx = [] then Except.error (strLit "Please provide a nonempty name!")
  else Except.ok { c with namePrefix := pfx }

/-- `PackageConverter.rename_package`: validate both names, then store the
lower-cased pair in the name mapping. -/
def rename_package (c : Converter) (python_package_name debian_package_name : Str) :
    Except Str Converter :=
  if python_package_name = [] then
    Except.error (strLit "Please provide a nonempty Python package name!")
  else if debian_package_name = [] then
    Except.error (strLit "Please provide a nonempty Debian package name!")
  else
    Except.ok { c with
      name_mapping :=
        dictInsert c.name_mapping (strLower python_package_name)
          (strLower debian_package_name) }

/-- `PackageConverter.set_install_prefix` (Python `set_install_prefix`):
raise on an empty directory, otherwise store it. -/
def setInstallPrefix (c : Converter) (directory : Str) : Except Str Converter :=
  if directory = [] then
    Except.error (strLit "Please provide a nonempty installation directory!")
  else Except.ok { c with installPrefix := directory }

/-- `PackageConverter.set_auto_install`: no validation. -/
def set_auto_install (c : Converter) (enabled : Bool) : Converter :=
  { c with auto_install := enabled }

/-- `PackageConverter.install_alternative`: validate both strings, then add
the pair to the set of alternatives. -/
def install_alternative (c : Converter) (link path : Str) : Except Str Converter :=
  if link = [] then
    Except.error (strLit "Please provide a nonempty name for the master link!")
  else if path = [] then
    Except.error (strLit "Please provide a nonempty name for the alternative!")
  else Except.ok { c with alternatives := c.alternatives ++ [(link, path)] }

/-- `PackageConverter.set_conversion_command`: validate both strings, then
store the command keyed by the lower-cased package name. -/
def set_conversion_command (c : Converter) (python_package_name command : Str) :
    Except Str Converter :=
  if python_package_name = [] then
    Except.error (strLit "Please provide a nonempty Python package name!")
  else if command = [] then
    Except.error (strLit "Please provide a nonempty shell command!")
  else
    Except.ok { c with
      scripts := dictInsert c.scripts (strLower python_package_name) command }

/-- `PackageConverter.transform_name`: look the lower-cased name up in the
override mapping; when absent (or empty, Python falsiness), prepend the
configured name chunk, normalize, split, compact repeating words and
re-join; always re-normalize the result. -/
def transform_name (c : Converter) (python_package_name : Str) : Str :=
  let made :=
    joinWords (compact_repeating_words
      (splitOnDash (normalize_package_name (c.namePrefix ++ 45 :: python_package_name))))
  let debian_package_name :=
    match dictGet c.name_mapping (strLower python_package_name) with
    | some d => if d = [] then made else d
    | none => made
  normalize_package_name debian_package_name

/-- `PackageConverter.debian_architecture`: map the output of
`uname --machine` to a Debian architecture, raising on anything
unrecognized. -/
def debian_architecture (uname_machine : Str) : Except Str Str :=
  if uname_machine = strLit "i686" then Except.ok (strLit "i386")
  else if uname_machine = strLit "x86_64" then Except.ok (strLit "amd64")
  else Except.error (strLit "The current architecture is not supported by py2deb!")

/-- A Python exception, as the retry loop in `get_source_distributions`
distinguishes them: `pip.exceptions.DistributionNotFound` (the one caught
and retried; the one raised at exhaustion carries the attempt count) versus
any other exception (carrying its message). -/
inductive PyExc where
  | distributionNotFound (attempts : Nat)
  | other (msg : Str)
deriving Repr, DecidableEq

/-- One unpacked source distribution as yielded by the resolver backend:
its Python name and version and the `is_direct` flag of its requirement. -/
structure SourcePackage where
  python_name : Str
  python_version : Str
  is_direct : Bool
deriving Repr, DecidableEq

/-- One converted artifact in the repository directory, identified by the
(target name, target version, architecture) triple encoded in its
filename. -/
structure Artifact where
  debian_name : Str
  debian_version : Str
  architecture : Str
deriving Repr, DecidableEq

/-- Modelled from the spec: `PackageToConvert.debian_name` from
`py2deb/package.py` (not among the sources): the target name is resolved
via the converter's name transformer. -/
def debian_name (c : Converter) (p : SourcePackage) : Str :=
  transform_name c p.python_name

/-- Modelled from the spec: `PackageToConvert.debian_version` from
`py2deb/package.py` (not among the sources): the target version is the
direct carry-over of the source version. -/
def debian_version (p : SourcePackage) : Str :=
  p.python_version

/-- Modelled from the spec: `PackageToConvert.existing_archive` backed by
`PackageRepository` from `py2deb/utils.py` (not among the sources): an
architecture-aware filename-pattern lookup of an already-converted
artifact for the given (name, version, architecture) triple in the
repository directory's current contents. -/
def existing_archive (repo : List Artifact) (arch name version : Str) :
    Option Artifact :=
  repo.find? (fun a =>
    decide (a.debian_name = name) && decide (a.debian_version = version) &&
      decide (a.architecture = arch))

/-- The dependency descriptor reported for a directly requested package:
the literal string `'%s (=%s)' % (debian_name, debian_version)`
(codes 32, 40, 61 are ` (=` and 41 is `)`). -/
def descriptor (c : Converter) (p : SourcePackage) : Str :=
  debian_name c p ++ 32 :: 40 :: 61 :: debian_version p ++ [41]

/-- Lexicographic comparison of two strings by code point, the order
Python's `sorted` uses on strings (a proper prefix sorts first). -/
def strLe : Str → Str → Bool
  | [], _ => true
  | _ :: _, [] => false
  | a :: x, b :: y =>
    if a < b then true
    else if b < a then false
    else strLe x y

/-- Insert a string into an already sorted list (model of the order
produced by Python `sorted`). -/
def insertStr (x : Str) : List Str → List Str
  | [] => [x]
  | y :: ys => if strLe x y then x :: y :: ys else y :: insertStr x ys

/-- The sorted permutation of a list of strings: the model of Python
`sorted(list_of_strings)`. -/
def sortStrings : List Str → List Str
  | [] => []
  | x :: xs => insertStr x (sortStrings xs)

/-- The state threaded through `convert`'s per-package loop: the current
contents of the repository directory, the packages the external Packager
has been invoked for (in order), and the accumulated directly requested
packages (`primary_packages`). -/
structure ConvState where
  repo : List Artifact
  builds : List SourcePackage
  primaries : List SourcePackage
deriving Repr, DecidableEq

/-- One iteration of `convert`'s loop body (lines 314-324): record a
direct requirement, then either skip an already-converted package or
invoke the external Packager (`package.convert()`) and move the resulting
archive into the repository directory. The Packager collaborator is a
parameter; on its failure the exception propagates. -/
def convertStep (c : Converter) (arch : Str)
    (packager : SourcePackage → Except PyExc Unit)
    (st : ConvState) (p : SourcePackage) : Except PyExc ConvState :=
  let prim := if p.is_direct then st.primaries ++ [p] else st.primaries
  match existing_archive st.repo arch (debian_name c p) (debian_version p) with
  | some _ => Except.ok { st with primaries := prim }
  | none =>
    match packager p with
    | Except.ok _ =>
      Except.ok
        ⟨st.repo ++ [⟨debian_name c p, debian_version p, arch⟩],
         st.builds ++ [p], prim⟩
    | Except.error e => Except.error e

/-- `convert`'s loop over the stream of fetched source packages. -/
def convertLoop (c : Converter) (arch : Str)
    (packager : SourcePackage → Except PyExc Unit) :
    ConvState → List SourcePackage → Except PyExc ConvState
  | st, [] => Except.ok st
  | st, p :: ps =>
    match convertStep c arch packager st p with
    | Except.ok st1 => convertLoop c arch packager st1 ps
    | Except.error e => Except.error e

/-- `PackageConverter.convert` given an already-fetched stream of source
packages: run the loop, then report one sorted dependency descriptor per
directly requested package. `repo0` is the repository directory's contents
when the call starts; `arch` is the current Debian architecture. -/
def convert (c : Converter) (arch : Str)
    (packager : SourcePackage → Except PyExc Unit)
    (repo0 : List Artifact) (pkgs : List SourcePackage) :
    Except PyExc (List Str) :=
  match convertLoop c arch packager ⟨repo0, [], []⟩ pkgs with
  | Except.ok st => Except.ok (sortStrings (st.primaries.map (descriptor c)))
  | Except.error e => Except.error e

/-- What one attempt of the resolver backend can do: enumerate and unpack
all required source distributions, raise `DistributionNotFound`, or raise
any other exception. `pip_accel.unpack_source_dists` enumerates fully
before the converter consumes anything, so one attempt is atomic. -/
inductive FetchOutcome where
  | success (pkgs : List SourcePackage)
  | distributionNotFound
  | failure (e : PyExc)
deriving Repr

/-- The outcome of `get_source_distributions`: the unpacked packages
together with how often the forced-download pass
(`download_source_dists`) ran, exhaustion of the retry budget, or a
propagated resolver exception. -/
inductive FetchResult where
  | ok (pkgs : List SourcePackage) (downloads : Nat)
  | notFound (attempts : Nat)
  | failure (e : PyExc)
deriving Repr, DecidableEq

/-- The retry loop of `get_source_distributions` (lines 365-374):
`backend i` is attempt number `i`; `remaining` counts the attempts left of
`for i in range(1, max_download_attempts + 1)`; a caught
`DistributionNotFound` triggers one forced-download pass and the next
attempt; exhaustion raises `DistributionNotFound` carrying the configured
maximum. -/
def fetchGo (backend : Nat → FetchOutcome) (maxAttempts : Nat)
    (i downloads : Nat) : Nat → FetchResult
  | 0 => FetchResult.notFound maxAttempts
  | remaining + 1 =>
    match backend i with
    | FetchOutcome.success pkgs => FetchResult.ok pkgs downloads
    | FetchOutcome.distributionNotFound =>
      fetchGo backend maxAttempts (i + 1) (downloads + 1) remaining
    | FetchOutcome.failure e => FetchResult.failure e

/-- `PackageConverter.get_source_distributions`: run the retry loop with
attempt numbers starting at 1 and the configured attempt budget. -/
def get_source_distributions (maxAttempts : Nat)
    (backend : Nat → FetchOutcome) : FetchResult :=
  fetchGo backend maxAttempts 1 0 maxAttempts

/-- `convert` end to end: fetch via the retry loop, then convert. A
resolver exception and a Packager exception propagate as the very same
exception value; exhaustion of the retry budget raises
`DistributionNotFound` with the attempt count. -/
def convert_full (c : Converter) (arch : Str)
    (packager : SourcePackage → Except PyExc Unit)
    (repo0 : List Artifact) (maxAttempts : Nat)
    (backend : Nat → FetchOutcome) : Except PyExc (List Str) :=
  match get_source_distributions maxAttempts backend with
  | FetchResult.ok pkgs _ => convert c arch packager repo0 pkgs
  | FetchResult.notFound n => Except.error (PyExc.distributionNotFound n)
  | FetchResult.failure e => Except.error e

/-- Filesystem events `convert` performs, for the scratch-directory
lifecycle claim: creation and removal of the scoped temporary directory
and moves of built archives into the repository directory. -/
inductive FsEvent where
  | mkdirTemp (d : Str)
  | rmtreeTemp (d : Str)
  | moveToRepo (name version arch : Str)
deriving Repr, DecidableEq

/-- The filesystem events of `convert`'s loop body, mirroring
`convertLoop`: a move per freshly built archive; on a Packager exception
the loop stops there (the exception propagates out of the `with` block). -/
def convertLoopEvents (c : Converter) (arch : Str)
    (packager : SourcePackage → Except PyExc Unit) :
    ConvState → List SourcePackage → List FsEvent
  | _, [] => []
  | st, p :: ps =>
    match convertStep c arch packager st p with
    | Except.ok st1 =>
      (if st1.repo = st.repo then []
       else [FsEvent.moveToRepo (debian_name c p) (debian_version p) arch]) ++
        convertLoopEvents c arch packager st1 ps
    | Except.error _ => []

/-- Modelled from the spec: the `TemporaryDirectory` context manager from
`py2deb/utils.py` (not among the sources) wrapping `convert`'s body
(line 311): the scratch directory is created on entry and removed on every
exit path, success or exception, so the removal event is appended to the
body's events unconditionally. -/
def convert_with_scratch (c : Converter) (arch : Str)
    (packager : SourcePackage → Except PyExc Unit)
    (repo0 : List Artifact) (pkgs : List SourcePackage) (scratch : Str) :
    Except PyExc (List Str) × List FsEvent :=
  (convert c arch packager repo0 pkgs,
   FsEvent.mkdirTemp scratch ::
     (convertLoopEvents c arch packager ⟨repo0, [], []⟩ pkgs ++
       [FsEvent.rmtreeTemp scratch]))

/-- Replay a list of filesystem events and tell whether directory `d`
exists afterwards (it did not exist beforehand). -/
def dirExistsAfter (d : Str) (events : List FsEvent) : Bool :=
  events.foldl
    (fun st e =>
      match e with
      | FsEvent.mkdirTemp d1 => if d1 = d then true else st
      | FsEvent.rmtreeTemp d1 => if d1 = d then false else st
      | FsEvent.moveToRepo _ _ _ => st)
    false

/-- One `package:` section of a configuration file, already parsed into
structured settings (parsing the file format is outside the core). -/
structure PackageSection where
  package : Str
  noNamePrefix : Option Bool
  rename : Option Str
  script : Option Str

/-- A parsed configuration file: the recognized global options, the
`alternatives` section's pairs, and the `package:` sections in file
order. -/
structure ConfigFile where
  repository : Option Str
  namePrefix : Option Str
  installPrefix : Option Str
  auto_install : Option Bool
  alternatives : List (Str × Str)
  packages : List PackageSection

/-- Run one setter against the accumulated state of `load_configuration`:
an earlier exception freezes the state (the Python exception aborted the
method, leaving every previously applied setting in effect). -/
def configStep (st : Converter × Option Str)
    (f : Converter → Except Str Converter) : Converter × Option Str :=
  match st.2 with
  | some _ => st
  | none =>
    match f st.1 with
    | Except.ok c1 => (c1, none)
    | Except.error e => (st.1, some e)

/-- The per-package part of `load_configuration` (lines 281-292): a
truthy `no-name-prefix` registers the override (package, package); a
`rename` option is applied after it via the same setter; a `script` option
last. -/
def loadPackageSection (st : Converter × Option Str) (sec : PackageSection) :
    Converter × Option Str :=
  let st1 :=
    match sec.noNamePrefix with
    | some true => configStep st (fun c => rename_package c sec.package sec.package)
    | _ => st
  let st2 :=
    match sec.rename with
    | some r => configStep st1 (fun c => rename_package c sec.package r)
    | none => st1
  match sec.script with
  | some s => configStep st2 (fun c => set_conversion_command c sec.package s)
  | none => st2

/-- `PackageConverter.load_configuration` applied to an already parsed
configuration file: each recognized setting is applied immediately via the
corresponding public setter, in the fixed source order — repository,
name-prefix, install-prefix, auto-install, the alternatives, then the
per-package sections. The returned pair is the converter state as left
behind (possibly partially updated) and the first exception, if any. -/
def load_configuration (fs : FileSystem) (c : Converter) (cfg : ConfigFile) :
    Converter × Option Str :=
  let st0 : Converter × Option Str := (c, none)
  let st1 :=
    match cfg.repository with
    | some d => configStep st0 (fun c1 => set_repository fs c1 d)
    | none => st0
  let st2 :=
    match cfg.namePrefix with
    | some p => configStep st1 (fun c1 => setNamePrefix c1 p)
    | none => st1
  let st3 :=
    match cfg.installPrefix with
    | some p => configStep st2 (fun c1 => setInstallPrefix c1 p)
    | none => st2
  let st4 :=
    match cfg.auto_install with
    | some b => configStep st3 (fun c1 => Except.ok (set_auto_install c1 b))
    | none => st3
  let st5 :=
    cfg.alternatives.foldl
      (fun st lp => configStep st (fun c1 => install_alternative c1 lp.1 lp.2)) st4
  cfg.packages.foldl loadPackageSection st5

/-- No two adjacent separators `-` (code 45): the shape `collapseDashes`
produces. -/
def noAdjDash : Str → Bool
  | [] => true
  | [_] => true
  | a :: b :: rest => !(a == 45 && b == 45) && noAdjDash (b :: rest)

/-- No two adjacent words equal up to case: the word lists on which
`compact_repeating_words` drops nothing. -/
def noAdjDup : List Str → Bool
  | [] => true
  | [_] => true
  | a :: b :: rest => !(strLower a == strLower b) && noAdjDup (b :: rest)

/-! ## Lemmas about the character-level normalizer -/

theorem collapseDashes_cons₂ (a b : Nat) (r : Str) :
    collapseDashes (a :: b :: r) =
      if a = 45 ∧ b = 45 then collapseDashes (b :: r)
      else a :: collapseDashes (b :: r) := rfl

theorem low_idem (n : Nat) : low (low n) = low n := by
  unfold low
  split
  · rw [if_neg (by omega : ¬ (65 ≤ n + 32 ∧ n + 32 ≤ 90))]
  · rfl

theorem san_idem (n : Nat) : san (san n) = san n := by
  unfold san
  split
  · rw [low_idem]
    simp [*]
  · have h45 : low 45 = 45 := by decide
    have ha : allowed 45 = false := by decide
    simp [h45, ha]

theorem san_45 : san 45 = 45 := by decide

theorem san_low (n : Nat) : san (low n) = san n := by
  unfold san
  rw [low_idem]

theorem collapseDashes_ne_nil (l : Str) (h : l ≠ []) : collapseDashes l ≠ [] := by
  induction l with
  | nil => exact absurd rfl h
  | cons a t ih =>
    cases t with
    | nil => simp [collapseDashes]
    | cons b r =>
      rw [collapseDashes_cons₂]
      split
      · exact ih (by simp)
      · simp

theorem collapseDashes_headOpt (l : Str) : (collapseDashes l).head? = l.head? := by
  induction l with
  | nil => rfl
  | cons a t ih =>
    cases t with
    | nil => rfl
    | cons b r =>
      rw [collapseDashes_cons₂]
      split
      · rename_i hab
        rw [ih]
        simp [hab.1, hab.2]
      · rfl

theorem collapseDashes_getLastOpt (l : Str) :
    (collapseDashes l).getLast? = l.getLast? := by
  induction l with
  | nil => rfl
  | cons a t ih =>
    cases t with
    | nil => rfl
    | cons b r =>
      rw [collapseDashes_cons₂]
      split
      · rw [ih, List.getLast?_cons_cons]
      · rw [List.getLast?_cons_cons, ← ih]
        have hne : collapseDashes (b :: r) ≠ [] := collapseDashes_ne_nil _ (by simp)
        cases h : collapseDashes (b :: r) with
        | nil => exact absurd h hne
        | cons x xs => rw [List.getLast?_cons_cons]

theorem collapseDashes_sublist (l : Str) : List.Sublist (collapseDashes l) l := by
  induction l with
  | nil => exact List.Sublist.refl _
  | cons a t ih =>
    cases t with
    | nil => exact List.Sublist.refl _
    | cons b r =>
      rw [collapseDashes_cons₂]
      split
      · exact List.Sublist.cons _ ih
      · exact ih.cons₂ a

theorem collapseDashes_append (A Y : Str) (h : A.getLast? ≠ some 45) :
    collapseDashes (A ++ Y) = collapseDashes A ++ collapseDashes Y := by
  induction A with
  | nil => simp [collapseDashes]
  | cons a t ih =>
    cases t with
    | nil =>
      have ha : a ≠ 45 := by
        intro he
        exact h (by simp [he])
      cases Y with
      | nil => simp [collapseDashes]
      | cons y ys =>
        have hc : ¬ (a = 45 ∧ y = 45) := fun hp => ha hp.1
        simp only [List.singleton_append, List.cons_append, List.nil_append]
        rw [collapseDashes_cons₂, if_neg hc]
        rfl
    | cons b r =>
      have h2 : (b :: r).getLast? ≠ some 45 := by
        rwa [List.getLast?_cons_cons] at h
      have ihr := ih h2
      simp only [List.cons_append] at ihr ⊢
      rw [collapseDashes_cons₂, collapseDashes_cons₂ a b r]
      by_cases hab : a = 45 ∧ b = 45
      · rw [if_pos hab, if_pos hab, ihr]
      · rw [if_neg hab, if_neg hab, ihr]
        rfl

theorem collapseDashes_noAdjDash (l : Str) : noAdjDash (collapseDashes l) = true := by
  induction l with
  | nil => rfl
  | cons a t ih =>
    cases t with
    | nil => rfl
    | cons b r =>
      rw [collapseDashes_cons₂]
      split
      · exact ih
      · rename_i hab
        have hne : collapseDashes (b :: r) ≠ [] := collapseDashes_ne_nil _ (by simp)
        cases h : collapseDashes (b :: r) with
        | nil => exact absurd h hne
        | cons x xs =>
          have hx : x = b := by
            have := collapseDashes_headOpt (b :: r)
            rw [h] at this
            simpa using this
          rw [h] at ih
          subst hx
          simp only [noAdjDash, Bool.and_eq_true, ih, and_true,
            Bool.not_eq_true']
          simp only [Bool.and_eq_false_iff, beq_eq_false_iff_ne]
          by_cases ha45 : a = 45
          · right
            intro hb45
            exact hab ⟨ha45, hb45⟩
          · left
            exact ha45

theorem collapseDashes_of_noAdjDash (l : Str) (h : noAdjDash l = true) :
    collapseDashes l = l := by
  induction l with
  | nil => rfl
  | cons a t ih =>
    cases t with
    | nil => rfl
    | cons b r =>
      simp only [noAdjDash, Bool.and_eq_true, Bool.not_eq_true',
        Bool.and_eq_false_iff, beq_eq_false_iff_ne] at h
      rw [collapseDashes_cons₂, if_neg, ih h.2]
      rcases h.1 with h1 | h1 <;> exact fun hc => h1 (by simp [hc.1, hc.2])

theorem collapseDashes_idem (l : Str) :
    collapseDashes (collapseDashes l) = collapseDashes l :=
  collapseDashes_of_noAdjDash _ (collapseDashes_noAdjDash l)

theorem map_self_of_fix {f : Nat → Nat} (l : Str) (h : ∀ c ∈ l, f c = c) :
    l.map f = l := by
  induction l with
  | nil => rfl
  | cons a t ih =>
    simp only [List.map_cons, h a (by simp)]
    rw [ih (fun c hc => h c (by simp [hc]))]

theorem map_san_fix (l : Str) :
    (collapseDashes (l.map san)).map san = collapseDashes (l.map san) := by
  apply map_self_of_fix
  intro c hc
  have hc2 : c ∈ l.map san := (collapseDashes_sublist _).subset hc
  obtain ⟨x, _, rfl⟩ := List.mem_map.mp hc2
  exact san_idem x

theorem normalize_package_name_idem (s : Str) :
    normalize_package_name (normalize_package_name s) = normalize_package_name s := by
  unfold normalize_package_name
  rw [map_san_fix, collapseDashes_idem]

theorem normalize_strLower (s : Str) :
    normalize_package_name (strLower s) = normalize_package_name s := by
  unfold normalize_package_name strLower
  rw [List.map_map]
  have : san ∘ low = san := funext san_low
  rw [this]

/-! ## Lemmas about splitting, joining and compacting words -/

theorem splitOnDash_dash (rest : Str) :
    splitOnDash (45 :: rest) = [] :: splitOnDash rest := rfl

theorem splitOnDash_cons (c : Nat) (rest : Str) (hc : c ≠ 45) :
    splitOnDash (c :: rest) =
      match splitOnDash rest with
      | [] => [[c]]
      | w :: ws => (c :: w) :: ws := by
  simp only [splitOnDash, if_neg hc]

theorem splitOnDash_ne_nil (s : Str) : splitOnDash s ≠ [] := by
  induction s with
  | nil => simp [splitOnDash]
  | cons c rest ih =>
    by_cases hc : c = 45
    · subst hc
      simp [splitOnDash_dash]
    · rw [splitOnDash_cons c rest hc]
      cases h : splitOnDash rest with
      | nil => simp
      | cons w ws => simp

theorem splitOnDash_append (xs ys : Str) :
    splitOnDash (xs ++ 45 :: ys) = splitOnDash xs ++ splitOnDash ys := by
  induction xs with
  | nil => simp [splitOnDash_dash, splitOnDash]
  | cons c rest ih =>
    by_cases hc : c = 45
    · subst hc
      simp only [List.cons_append, splitOnDash_dash, ih, List.nil_append]
    · simp only [List.cons_append]
      rw [splitOnDash_cons c (rest ++ 45 :: ys) hc, splitOnDash_cons c rest hc, ih]
      cases h : splitOnDash rest with
      | nil => exact absurd h (splitOnDash_ne_nil rest)
      | cons w ws => simp

theorem joinWords_cons₂ (w x : Str) (ws : List Str) :
    joinWords (w :: x :: ws) = w ++ 45 :: joinWords (x :: ws) := rfl

theorem joinWords_splitOnDash (s : Str) : joinWords (splitOnDash s) = s := by
  induction s with
  | nil => rfl
  | cons c rest ih =>
    by_cases hc : c = 45
    · subst hc
      rw [splitOnDash_dash]
      cases h : splitOnDash rest with
      | nil => exact absurd h (splitOnDash_ne_nil rest)
      | cons w ws =>
        rw [joinWords_cons₂, List.nil_append, ← h, ih]
    · rw [splitOnDash_cons c rest hc]
      cases h : splitOnDash rest with
      | nil => exact absurd h (splitOnDash_ne_nil rest)
      | cons w ws =>
        cases ws with
        | nil =>
          have : joinWords (splitOnDash rest) = rest := ih
          rw [h] at this
          simp only [joinWords] at this ⊢
          rw [this]
        | cons x ws2 =>
          have h2 : joinWords (splitOnDash rest) = rest := ih
          rw [h] at h2
          rw [joinWords_cons₂]
          rw [List.cons_append]
          rw [joinWords_cons₂] at h2
          rw [h2]

theorem joinWords_append_exists (X Y : List Str) (hx : X ≠ []) :
    ∃ t : Str, joinWords (X ++ Y) = joinWords X ++ t := by
  induction X with
  | nil => exact absurd rfl hx
  | cons w ws ih =>
    cases ws with
    | nil =>
      cases Y with
      | nil => exact ⟨[], by simp [joinWords]⟩
      | cons y ys =>
        refine ⟨45 :: joinWords (y :: ys), ?_⟩
        simp only [List.singleton_append, List.nil_append]
        rw [joinWords_cons₂]
        simp [joinWords]
    | cons x ws2 =>
      obtain ⟨t, ht⟩ := ih (by simp)
      refine ⟨t, ?_⟩
      simp only [List.cons_append] at ht ⊢
      rw [joinWords_cons₂, joinWords_cons₂, ht, List.append_assoc]
      simp

theorem compactGo_append_exists (X Y : List Str) (p : Str)
    (h : noAdjDup (p :: X) = true) :
    ∃ rest : List Str, compactGo p (X ++ Y) = X ++ rest := by
  induction X generalizing p with
  | nil => exact ⟨compactGo p Y, by simp⟩
  | cons x xs ih =>
    simp only [noAdjDup, Bool.and_eq_true, Bool.not_eq_true', beq_eq_false_iff_ne] at h
    obtain ⟨t, ht⟩ := ih x (by
      cases xs with
      | nil => rfl
      | cons z zs =>
        simp only [noAdjDup, Bool.and_eq_true, Bool.not_eq_true', beq_eq_false_iff_ne]
        simp only [noAdjDup, Bool.and_eq_true, Bool.not_eq_true', beq_eq_false_iff_ne] at h
        exact h.2)
    refine ⟨t, ?_⟩
    simp only [List.cons_append, compactGo, if_neg (Ne.symm h.1), List.append_eq, ht]

theorem compact_append_exists (X Y : List Str) (hx : X ≠ [])
    (h : noAdjDup X = true) :
    ∃ rest : List Str, compact_repeating_words (X ++ Y) = X ++ rest := by
  cases X with
  | nil => exact absurd rfl hx
  | cons w ws =>
    obtain ⟨t, ht⟩ := compactGo_append_exists ws Y w h
    exact ⟨t, by simp only [List.cons_append, compact_repeating_words, ht]⟩

/-! ## Name Transformer claims -/

theorem dictGet_dictInsert (m : List (Str × Str)) (k v : Str) :
    dictGet (dictInsert m k v) k = some v := by
  unfold dictGet dictInsert
  rw [List.find?_cons_of_pos _ (by simp)]
  rfl

/-- C6: under every naming configuration, the output of the name
transformer is already in canonical form:
`normalize(transform(x)) = transform(x)`. -/
theorem transform_name_normalized (c : Converter) (x : Str) :
    normalize_package_name (transform_name c x) = transform_name c x := by
  unfold transform_name
  exact normalize_package_name_idem _

/-- C5: after `rename(source, target)`, `transform` applied to the source
name in any letter case returns `normalize(target)`: the registered
override wins over the concatenation algorithm and is itself brought into
canonical form. -/
theorem rename_package_overrides (c c1 : Converter) (s t n : Str)
    (hs : s ≠ []) (ht : t ≠ [])
    (hr : rename_package c s t = Except.ok c1)
    (hn : strLower n = strLower s) :
    transform_name c1 n = normalize_package_name t := by
  unfold rename_package at hr
  rw [if_neg hs, if_neg ht] at hr
  have hc1 : c1 = { c with
      name_mapping := dictInsert c.name_mapping (strLower s) (strLower t) } :=
    (Except.ok.injEq _ _ ▸ hr).symm
  subst hc1
  have htl : strLower t ≠ [] := by
    simpa [strLower, List.map_eq_nil_iff] using ht
  unfold transform_name
  rw [hn]
  rw [show ({ c with
      name_mapping := dictInsert c.name_mapping (strLower s) (strLower t) }
        : Converter).name_mapping
      = dictInsert c.name_mapping (strLower s) (strLower t) from rfl]
  rw [dictGet_dictInsert]
  simp only [if_neg htl]
  exact normalize_strLower t

/-- Witness for C5 at the spec's own example:
`rename("foo", "custom-foo")` then `transform("FOO")`. -/
theorem rename_package_overrides_witness :
    transform_name
        { initialConverter with
            name_mapping := [(strLit "foo", strLit "custom-foo")] }
        (strLit "FOO")
      = normalize_package_name (strLit "custom-foo") :=
  rename_package_overrides initialConverter _ (strLit "foo")
    (strLit "custom-foo") (strLit "FOO") (by decide) (by decide) rfl (by decide)

/-- C4 counterexample: with the perfectly legal name chunk `"a-a"`
(accepted by `set_name_prefix`) and the source name `"b"` — which has no
registered override and whose own leading word differs from the
configured chunk, so the claim's exception clause does not apply —
`transform` returns `"a-b"`, which does not start with
`normalize("a-a") = "a-a"`: word compaction inside the normalized chunk
itself breaks the claimed property. -/
theorem transform_name_startsWith_counterexample :
    transform_name { initialConverter with namePrefix := strLit "a-a" }
        (strLit "b") = strLit "a-b" ∧
    ({ initialConverter with namePrefix := strLit "a-a" }
        : Converter).name_mapping = [] ∧
    strLit "a-a" ≠ ([] : Str) ∧ strLit "b" ≠ ([] : Str) ∧
    strLit "b" ≠ strLit "a-a" ∧
    ¬ (normalize_package_name (strLit "a-a") <+:
        transform_name { initialConverter with namePrefix := strLit "a-a" }
          (strLit "b")) := by
  decide

/-- C4 amended: for every non-empty configured name chunk and non-empty
source name with no registered override, `transform(name)` starts with
`normalize(chunk)` — provided the normalized chunk has no adjacent
repeated words and does not end with the separator (otherwise word
compaction, respectively separator collapsing at the boundary, can eat
into it, as the counterexample shows). In particular the exception case
of the original claim (name's leading word equal to the chunk) still
yields a string starting with the normalized chunk. -/
theorem transform_name_startsWith_normalized (c : Converter) (name : Str)
    (hov : dictGet c.name_mapping (strLower name) = none)
    (hp : c.namePrefix ≠ []) (hn : name ≠ [])
    (ha : noAdjDup (splitOnDash (normalize_package_name c.namePrefix)) = true)
    (hb : (normalize_package_name c.namePrefix).getLast? ≠ some 45) :
    normalize_package_name c.namePrefix <+: transform_name c name := by
  have htr : transform_name c name =
      normalize_package_name (joinWords (compact_repeating_words
        (splitOnDash (normalize_package_name
          (c.namePrefix ++ 45 :: name))))) := by
    unfold transform_name
    rw [hov]
  rw [htr]
  have hmap : (c.namePrefix ++ 45 :: name).map san =
      c.namePrefix.map san ++ 45 :: name.map san := by
    rw [List.map_append, List.map_cons, san_45]
  have hlastA : (c.namePrefix.map san).getLast? ≠ some 45 := by
    rw [← collapseDashes_getLastOpt]
    exact hb
  have hcomb : normalize_package_name (c.namePrefix ++ 45 :: name) =
      collapseDashes (c.namePrefix.map san) ++
        collapseDashes (45 :: name.map san) := by
    unfold normalize_package_name
    rw [hmap, collapseDashes_append _ _ hlastA]
  have hne45 : collapseDashes (45 :: name.map san) ≠ [] :=
    collapseDashes_ne_nil _ (by simp)
  obtain ⟨C, hC⟩ : ∃ C, collapseDashes (45 :: name.map san) = 45 :: C := by
    cases h45 : collapseDashes (45 :: name.map san) with
    | nil => exact absurd h45 hne45
    | cons x xs =>
      have hx : x = 45 := by
        have hh := collapseDashes_headOpt (45 :: name.map san)
        rw [h45] at hh
        simpa using hh
      exact ⟨xs, by rw [hx]⟩
  have hsplit : splitOnDash (normalize_package_name
      (c.namePrefix ++ 45 :: name)) =
      splitOnDash (normalize_package_name c.namePrefix) ++ splitOnDash C := by
    rw [hcomb, hC, splitOnDash_append]
    rfl
  have hPWne : splitOnDash (normalize_package_name c.namePrefix) ≠ [] :=
    splitOnDash_ne_nil _
  obtain ⟨rest, hrest⟩ :=
    compact_append_exists (splitOnDash (normalize_package_name c.namePrefix))
      (splitOnDash C) hPWne ha
  obtain ⟨t, htj⟩ :=
    joinWords_append_exists (splitOnDash (normalize_package_name c.namePrefix))
      rest hPWne
  rw [hsplit, hrest, htj, joinWords_splitOnDash]
  have hfinal : normalize_package_name (normalize_package_name c.namePrefix ++ t)
      = normalize_package_name c.namePrefix ++
          collapseDashes (t.map san) := by
    unfold normalize_package_name
    rw [List.map_append]
    rw [show (collapseDashes (c.namePrefix.map san)).map san
        = collapseDashes (c.namePrefix.map san) from map_san_fix c.namePrefix]
    rw [collapseDashes_append (collapseDashes (List.map san c.namePrefix))
      (List.map san t) hb]
    rw [collapseDashes_idem]
  rw [hfinal]
  exact List.prefix_append _ _

/-- Witness for the amended C4 at the spec's example: the default
configuration (chunk `"python"`) and the name `"Flask"`. -/
theorem transform_name_startsWith_normalized_witness :
    normalize_package_name (strLit "python") <+:
      transform_name initialConverter (strLit "Flask") :=
  transform_name_startsWith_normalized initialConverter (strLit "Flask")
    (by decide) (by decide) (by decide) (by decide) (by decide)

/-! ## Lemmas about the sorted dependency report -/

theorem strLe_total (x y : Str) : strLe x y = true ∨ strLe y x = true := by
  induction x generalizing y with
  | nil => left; rfl
  | cons a xs ih =>
    cases y with
    | nil => right; rfl
    | cons b ys =>
      rcases Nat.lt_trichotomy a b with h | h | h
      · left
        simp [strLe, h]
      · subst h
        rcases ih ys with h2 | h2
        · left
          simp [strLe, h2]
        · right
          simp [strLe, h2]
      · right
        simp [strLe, h]

theorem strLe_trans (x y z : Str) (h1 : strLe x y = true)
    (h2 : strLe y z = true) : strLe x z = true := by
  induction x generalizing y z with
  | nil => rfl
  | cons a xs ih =>
    cases y with
    | nil => exact absurd h1 (by simp [strLe])
    | cons b ys =>
      cases z with
      | nil => exact absurd h2 (by simp [strLe])
      | cons c zs =>
        simp only [strLe] at h1 h2 ⊢
        split_ifs at h1 h2 ⊢ <;>
          first
            | rfl
            | (exact ih ys zs h1 h2)
            | (exfalso; omega)

theorem insertStr_perm (x : Str) (l : List Str) :
    List.Perm (insertStr x l) (x :: l) := by
  induction l with
  | nil => exact List.Perm.refl _
  | cons y ys ih =>
    simp only [insertStr]
    split
    · exact List.Perm.refl _
    · exact (ih.cons y).trans (List.Perm.swap x y ys)

theorem sortStrings_perm (l : List Str) : List.Perm (sortStrings l) l := by
  induction l with
  | nil => exact List.Perm.refl _
  | cons x xs ih =>
    exact (insertStr_perm x (sortStrings xs)).trans (ih.cons x)

theorem insertStr_pairwise (x : Str) (l : List Str)
    (h : List.Pairwise (fun a b => strLe a b = true) l) :
    List.Pairwise (fun a b => strLe a b = true) (insertStr x l) := by
  induction l with
  | nil => simp [insertStr]
  | cons y ys ih =>
    rw [List.pairwise_cons] at h
    simp only [insertStr]
    split
    · rename_i hxy
      rw [List.pairwise_cons]
      constructor
      · intro z hz
        rcases List.mem_cons.mp hz with rfl | hz2
        · exact hxy
        · exact strLe_trans x y z hxy (h.1 z hz2)
      · exact List.pairwise_cons.mpr h
    · rename_i hxy
      have hyx : strLe y x = true := by
        rcases strLe_total x y with h2 | h2
        · exact absurd h2 hxy
        · exact h2
      rw [List.pairwise_cons]
      constructor
      · intro z hz
        have hz2 : z ∈ x :: ys := (insertStr_perm x ys).mem_iff.mp hz
        rcases List.mem_cons.mp hz2 with rfl | hz3
        · exact hyx
        · exact h.1 z hz3
      · exact ih h.2

theorem sortStrings_pairwise (l : List Str) :
    List.Pairwise (fun a b => strLe a b = true) (sortStrings l) := by
  induction l with
  | nil => simp [sortStrings]
  | cons x xs ih => exact insertStr_pairwise x (sortStrings xs) ih

/-! ## The conversion loop and the dependency report (claims C1, C2, C7) -/

theorem convertStep_primaries (c : Converter) (arch : Str)
    (packager : SourcePackage → Except PyExc Unit)
    (st st1 : ConvState) (p : SourcePackage)
    (h : convertStep c arch packager st p = Except.ok st1) :
    st1.primaries = st.primaries ++ (if p.is_direct then [p] else []) := by
  unfold convertStep at h
  by_cases hd : p.is_direct
  · simp only [hd, ite_true] at h ⊢
    split at h
    · injection h with h
      subst h
      rfl
    · split at h
      · injection h with h
        subst h
        rfl
      · cases h
  · simp only [hd, ite_false] at h ⊢
    split at h
    · injection h with h
      subst h
      simp
    · split at h
      · injection h with h
        subst h
        simp
      · cases h

theorem convertLoop_primaries (c : Converter) (arch : Str)
    (packager : SourcePackage → Except PyExc Unit) :
    ∀ (l : List SourcePackage) (st st1 : ConvState),
      convertLoop c arch packager st l = Except.ok st1 →
      st1.primaries = st.primaries ++ l.filter (fun p => p.is_direct) := by
  intro l
  induction l with
  | nil =>
    intro st st1 h
    injection h with h
    subst h
    simp
  | cons p ps ih =>
    intro st st1 h
    unfold convertLoop at h
    cases hstep : convertStep c arch packager st p with
    | ok st2 =>
      rw [hstep] at h
      have h1 := convertStep_primaries c arch packager st st2 p hstep
      have h2 := ih st2 st1 h
      rw [h2, h1, List.append_assoc]
      by_cases hd : p.is_direct <;> simp [hd]
    | error e =>
      rw [hstep] at h
      cases h

/-- C1: whenever `convert` completes normally, the returned sequence is a
permutation of — i.e. contains exactly one descriptor for — the literal
`"name (=version)"` descriptors of the directly requested packages
(transitively pulled-in packages are filtered out), and it is sorted
lexicographically. -/
theorem convert_descriptor_report (c : Converter) (arch : Str)
    (packager : SourcePackage → Except PyExc Unit)
    (repo0 : List Artifact) (pkgs : List SourcePackage) (out : List Str)
    (h : convert c arch packager repo0 pkgs = Except.ok out) :
    out = sortStrings
        ((pkgs.filter (fun p => p.is_direct)).map (descriptor c)) ∧
    List.Perm out ((pkgs.filter (fun p => p.is_direct)).map (descriptor c)) ∧
    List.Pairwise (fun a b => strLe a b = true) out := by
  unfold convert at h
  cases hloop : convertLoop c arch packager ⟨repo0, [], []⟩ pkgs with
  | ok st =>
    rw [hloop] at h
    injection h with h
    subst h
    have hp := convertLoop_primaries c arch packager pkgs ⟨repo0, [], []⟩ st hloop
    simp only [List.nil_append] at hp
    rw [hp]
    exact ⟨rfl, sortStrings_perm _, sortStrings_pairwise _⟩
  | error e =>
    rw [hloop] at h
    cases h

/-- Witness for C1 on a three-package run (two direct, one transitive). -/
theorem convert_descriptor_report_witness :
    List.Pairwise (fun a b => strLe a b = true)
      [strLit "python-abc (=0.1)", strLit "python-foo (=1.0)"] :=
  (convert_descriptor_report initialConverter (strLit "amd64")
      (fun _ => Except.ok ()) []
      [⟨strLit "foo", strLit "1.0", true⟩, ⟨strLit "bar", strLit "2.0", false⟩,
       ⟨strLit "abc", strLit "0.1", true⟩]
      [strLit "python-abc (=0.1)", strLit "python-foo (=1.0)"] rfl).2.2

theorem convertStep_skip_existing (c : Converter) (arch : Str)
    (packager : SourcePackage → Except PyExc Unit)
    (st : ConvState) (p : SourcePackage) (a : Artifact)
    (hex : existing_archive st.repo arch (debian_name c p) (debian_version p)
      = some a) :
    convertStep c arch packager st p =
      Except.ok { st with primaries :=
        if p.is_direct then st.primaries ++ [p] else st.primaries } := by
  unfold convertStep
  rw [hex]

theorem convertStep_repo_extends (c : Converter) (arch : Str)
    (packager : SourcePackage → Except PyExc Unit)
    (st st1 : ConvState) (p : SourcePackage)
    (h : convertStep c arch packager st p = Except.ok st1) :
    st.repo <+: st1.repo ∧
      (st1.repo = st.repo ∨
        ∃ t : Artifact, st1.repo = st.repo ++ [t] ∧
          existing_archive st.repo arch t.debian_name t.debian_version
            = none) := by
  unfold convertStep at h
  generalize (if p.is_direct then st.primaries ++ [p] else st.primaries)
      = prim at h
  split at h
  · injection h with h
    subst h
    exact ⟨List.prefix_refl _, Or.inl rfl⟩
  · rename_i hex
    split at h
    · injection h with h
      subst h
      exact ⟨List.prefix_append _ _,
        Or.inr ⟨⟨debian_name c p, debian_version p, arch⟩, rfl, hex⟩⟩
    · cases h

theorem convertLoop_repo_extends (c : Converter) (arch : Str)
    (packager : SourcePackage → Except PyExc Unit) :
    ∀ (l : List SourcePackage) (st st1 : ConvState),
      convertLoop c arch packager st l = Except.ok st1 →
      st.repo <+: st1.repo := by
  intro l
  induction l with
  | nil =>
    intro st st1 h
    injection h with h
    subst h
    exact List.prefix_refl _
  | cons p ps ih =>
    intro st st1 h
    unfold convertLoop at h
    cases hstep : convertStep c arch packager st p with
    | ok st2 =>
      rw [hstep] at h
      exact (convertStep_repo_extends c arch packager st st2 p hstep).1.trans
        (ih st2 st1 h)
    | error e =>
      rw [hstep] at h
      cases h

/-- C2: (i) a package whose (name, version, architecture) triple already
has an artifact in the repository directory is skipped — the loop
iteration returns with the repository contents and the list of Packager
invocations unchanged, only recording the direct requirement; (ii) each
loop iteration only ever appends to the repository directory, and an
artifact is appended only when no artifact with its (name, version,
architecture) triple is present — nothing is removed or overwritten;
(iii) hence across a whole `convert` run the initial repository contents
remain an unchanged prefix of the final contents. -/
theorem convert_skip_and_append_only :
    (∀ (c : Converter) (arch : Str)
        (packager : SourcePackage → Except PyExc Unit)
        (st : ConvState) (p : SourcePackage) (a : Artifact),
      existing_archive st.repo arch (debian_name c p) (debian_version p)
          = some a →
      convertStep c arch packager st p =
        Except.ok { st with primaries :=
          if p.is_direct then st.primaries ++ [p] else st.primaries }) ∧
    (∀ (c : Converter) (arch : Str)
        (packager : SourcePackage → Except PyExc Unit)
        (st st1 : ConvState) (p : SourcePackage),
      convertStep c arch packager st p = Except.ok st1 →
      st.repo <+: st1.repo ∧
        (st1.repo = st.repo ∨
          ∃ t : Artifact, st1.repo = st.repo ++ [t] ∧
            existing_archive st.repo arch t.debian_name t.debian_version
              = none)) ∧
    (∀ (c : Converter) (arch : Str)
        (packager : SourcePackage → Except PyExc Unit)
        (l : List SourcePackage) (st st1 : ConvState),
      convertLoop c arch packager st l = Except.ok st1 →
      st.repo <+: st1.repo) :=
  ⟨fun c arch packager st p a hex =>
      convertStep_skip_existing c arch packager st p a hex,
   fun c arch packager st st1 p h =>
      convertStep_repo_extends c arch packager st st1 p h,
   fun c arch packager l st st1 h =>
      convertLoop_repo_extends c arch packager l st st1 h⟩

/-- Witness for C2: a package whose artifact is already present is
skipped even by a Packager stub that fails when invoked. -/
theorem convert_skip_and_append_only_witness :
    convertStep initialConverter (strLit "amd64")
        (fun _ => Except.error (PyExc.other (strLit "packager invoked")))
        ⟨[⟨strLit "python-foo", strLit "1.0", strLit "amd64"⟩], [], []⟩
        ⟨strLit "foo", strLit "1.0", true⟩ =
      Except.ok
        ⟨[⟨strLit "python-foo", strLit "1.0", strLit "amd64"⟩], [],
          [⟨strLit "foo", strLit "1.0", true⟩]⟩ :=
  convert_skip_and_append_only.1 initialConverter (strLit "amd64")
    (fun _ => Except.error (PyExc.other (strLit "packager invoked")))
    ⟨[⟨strLit "python-foo", strLit "1.0", strLit "amd64"⟩], [], []⟩
    ⟨strLit "foo", strLit "1.0", true⟩
    ⟨strLit "python-foo", strLit "1.0", strLit "amd64"⟩ rfl

/-! ## The retry loop (claims C3, C7) -/

theorem fetchGo_succ (backend : Nat → FetchOutcome)
    (maxAttempts i downloads rem : Nat) :
    fetchGo backend maxAttempts i downloads (rem + 1) =
      match backend i with
      | FetchOutcome.success pkgs => FetchResult.ok pkgs downloads
      | FetchOutcome.distributionNotFound =>
        fetchGo backend maxAttempts (i + 1) (downloads + 1) rem
      | FetchOutcome.failure e => FetchResult.failure e := rfl

theorem fetchGo_skip_notFound (backend : Nat → FetchOutcome)
    (maxAttempts : Nat) :
    ∀ (n i downloads remaining : Nat),
      (∀ j, i ≤ j → j < i + n → backend j = FetchOutcome.distributionNotFound) →
      n ≤ remaining →
      fetchGo backend maxAttempts i downloads remaining =
        fetchGo backend maxAttempts (i + n) (downloads + n) (remaining - n) := by
  intro n
  induction n with
  | zero => intro i downloads remaining _ _; simp
  | succ m ih =>
    intro i downloads remaining hdnf hle
    cases remaining with
    | zero => omega
    | succ rem =>
      have hbi : backend i = FetchOutcome.distributionNotFound :=
        hdnf i (Nat.le_refl i) (by omega)
      have step : fetchGo backend maxAttempts i downloads (rem + 1) =
          fetchGo backend maxAttempts (i + 1) (downloads + 1) rem := by
        rw [fetchGo_succ, hbi]
      rw [step]
      have := ih (i + 1) (downloads + 1) rem
        (fun j h1 h2 => hdnf j (by omega) (by omega)) (by omega)
      rw [this]
      congr 1 <;> omega

theorem convertLoop_ok_of_packager_ok (c : Converter) (arch : Str)
    (packager : SourcePackage → Except PyExc Unit)
    (hpk : ∀ p, packager p = Except.ok ()) :
    ∀ (l : List SourcePackage) (st : ConvState),
      ∃ st1, convertLoop c arch packager st l = Except.ok st1 := by
  intro l
  induction l with
  | nil => exact fun st => ⟨st, rfl⟩
  | cons p ps ih =>
    intro st
    have hstep : ∃ st2, convertStep c arch packager st p = Except.ok st2 := by
      unfold convertStep
      cases hex : existing_archive st.repo arch (debian_name c p)
          (debian_version p) with
      | some a => exact ⟨_, rfl⟩
      | none =>
        rw [hpk p]
        exact ⟨_, rfl⟩
    obtain ⟨st2, hst2⟩ := hstep
    obtain ⟨st1, hst1⟩ := ih st2
    refine ⟨st1, ?_⟩
    unfold convertLoop
    rw [hst2]
    exact hst1

/-- C3: against a resolver backend that reports "not found" on exactly the
first k attempts and succeeds on attempt k+1: when k is below the
configured maximum number of attempts, fetching succeeds with exactly k
forced-download passes and `convert` succeeds end to end (given a working
Packager); when k reaches the maximum, fetching — and with it `convert` —
fails with a `DistributionNotFound` error carrying the configured
maximum as its attempt count. -/
theorem retry_loop_attempts (maxAttempts k : Nat)
    (pkgs : List SourcePackage) (backend : Nat → FetchOutcome)
    (c : Converter) (arch : Str)
    (packager : SourcePackage → Except PyExc Unit)
    (repo0 : List Artifact)
    (hdnf : ∀ i, 1 ≤ i → i ≤ k → backend i = FetchOutcome.distributionNotFound)
    (hsucc : backend (k + 1) = FetchOutcome.success pkgs)
    (hpk : ∀ p, packager p = Except.ok ()) :
    (k < maxAttempts →
      get_source_distributions maxAttempts backend = FetchResult.ok pkgs k ∧
      ∃ out, convert_full c arch packager repo0 maxAttempts backend
        = Except.ok out) ∧
    (maxAttempts ≤ k →
      get_source_distributions maxAttempts backend
          = FetchResult.notFound maxAttempts ∧
      convert_full c arch packager repo0 maxAttempts backend
        = Except.error (PyExc.distributionNotFound maxAttempts)) := by
  constructor
  · intro hlt
    have hskip := fetchGo_skip_notFound backend maxAttempts k 1 0 maxAttempts
      (fun j h1 h2 => hdnf j h1 (by omega)) (by omega)
    have hget : get_source_distributions maxAttempts backend
        = FetchResult.ok pkgs k := by
      unfold get_source_distributions
      rw [hskip]
      have hrem : maxAttempts - k = (maxAttempts - k - 1) + 1 := by omega
      rw [hrem]
      unfold fetchGo
      rw [show 1 + k = k + 1 from by omega, hsucc]
      simp
    refine ⟨hget, ?_⟩
    obtain ⟨st1, hloop⟩ :=
      convertLoop_ok_of_packager_ok c arch packager hpk pkgs ⟨repo0, [], []⟩
    refine ⟨sortStrings (st1.primaries.map (descriptor c)), ?_⟩
    have hred : convert_full c arch packager repo0 maxAttempts backend
        = convert c arch packager repo0 pkgs := by
      unfold convert_full
      rw [hget]
    rw [hred]
    unfold convert
    rw [hloop]
  · intro hge
    have hskip := fetchGo_skip_notFound backend maxAttempts maxAttempts 1 0
      maxAttempts (fun j h1 h2 => hdnf j h1 (by omega)) (Nat.le_refl _)
    have hget : get_source_distributions maxAttempts backend
        = FetchResult.notFound maxAttempts := by
      unfold get_source_distributions
      rw [hskip]
      simp [fetchGo]
    refine ⟨hget, ?_⟩
    unfold convert_full
    rw [hget]

/-- Witness for C3: a backend failing twice then succeeding, with the
default budget of 10 attempts, and the same backend against a budget of
2 attempts. -/
theorem retry_loop_attempts_witness :
    (get_source_distributions 10
        (fun i => if i ≤ 2 then FetchOutcome.distributionNotFound
          else FetchOutcome.success [⟨strLit "foo", strLit "1.0", true⟩])
      = FetchResult.ok [⟨strLit "foo", strLit "1.0", true⟩] 2) ∧
    (get_source_distributions 2
        (fun i => if i ≤ 2 then FetchOutcome.distributionNotFound
          else FetchOutcome.success [⟨strLit "foo", strLit "1.0", true⟩])
      = FetchResult.notFound 2) :=
  ⟨((retry_loop_attempts 10 2 [⟨strLit "foo", strLit "1.0", true⟩]
      (fun i => if i ≤ 2 then FetchOutcome.distributionNotFound
        else FetchOutcome.success [⟨strLit "foo", strLit "1.0", true⟩])
      initialConverter (strLit "amd64") (fun _ => Except.ok ()) []
      (fun i _ h2 => by simp [h2]) (by simp) (fun p => rfl)).1
      (by omega)).1,
   ((retry_loop_attempts 2 2 [⟨strLit "foo", strLit "1.0", true⟩]
      (fun i => if i ≤ 2 then FetchOutcome.distributionNotFound
        else FetchOutcome.success [⟨strLit "foo", strLit "1.0", true⟩])
      initialConverter (strLit "amd64") (fun _ => Except.ok ()) []
      (fun i _ h2 => by simp [h2]) (by simp) (fun p => rfl)).2
      (by omega)).1⟩

/-- C7: an exception from the resolver other than the caught
`DistributionNotFound` condition stops the retry loop at that very
attempt and propagates to the caller as the same exception value, and a
Packager exception likewise aborts the conversion loop and propagates
unchanged — neither is retried, wrapped, or converted. -/
theorem errors_propagate_uncaught :
    (∀ (maxAttempts : Nat) (backend : Nat → FetchOutcome)
        (i downloads remaining : Nat) (e : PyExc),
      1 ≤ remaining → backend i = FetchOutcome.failure e →
      fetchGo backend maxAttempts i downloads remaining
        = FetchResult.failure e) ∧
    (∀ (c : Converter) (arch : Str)
        (packager : SourcePackage → Except PyExc Unit)
        (repo0 : List Artifact) (maxAttempts : Nat)
        (backend : Nat → FetchOutcome) (e : PyExc),
      1 ≤ maxAttempts → backend 1 = FetchOutcome.failure e →
      convert_full c arch packager repo0 maxAttempts backend
        = Except.error e) ∧
    (∀ (c : Converter) (arch : Str)
        (packager : SourcePackage → Except PyExc Unit)
        (st : ConvState) (p : SourcePackage) (e : PyExc),
      packager p = Except.error e →
      existing_archive st.repo arch (debian_name c p) (debian_version p)
          = none →
      convertStep c arch packager st p = Except.error e) ∧
    (∀ (c : Converter) (arch : Str)
        (packager : SourcePackage → Except PyExc Unit)
        (repo0 : List Artifact) (p : SourcePackage)
        (l : List SourcePackage) (e : PyExc),
      packager p = Except.error e →
      existing_archive repo0 arch (debian_name c p) (debian_version p)
          = none →
      convert c arch packager repo0 (p :: l) = Except.error e) := by
  refine ⟨?_, ?_, ?_, ?_⟩
  · intro maxAttempts backend i downloads remaining e hrem hb
    obtain ⟨m, rfl⟩ : ∃ m, remaining = m + 1 := ⟨remaining - 1, by omega⟩
    rw [fetchGo_succ, hb]
  · intro c arch packager repo0 maxAttempts backend e hmax hb1
    obtain ⟨m, rfl⟩ : ∃ m, maxAttempts = m + 1 := ⟨maxAttempts - 1, by omega⟩
    unfold convert_full get_source_distributions
    rw [fetchGo_succ, hb1]
  · intro c arch packager st p e hpk hex
    unfold convertStep
    rw [hex, hpk]
  · intro c arch packager repo0 p l e hpk hex
    have hstep : convertStep c arch packager ⟨repo0, [], []⟩ p
        = Except.error e := by
      unfold convertStep
      rw [hex, hpk]
    unfold convert convertLoop
    rw [hstep]

/-- Witness for C7: a resolver exception on attempt 1 and a Packager
exception on an unconverted package, each coming back verbatim. -/
theorem errors_propagate_uncaught_witness :
    (convert_full initialConverter (strLit "amd64") (fun _ => Except.ok ())
        [] 10 (fun _ => FetchOutcome.failure (PyExc.other (strLit "boom")))
      = Except.error (PyExc.other (strLit "boom"))) ∧
    (convert initialConverter (strLit "amd64")
        (fun _ => Except.error (PyExc.other (strLit "build failed"))) []
        [⟨strLit "foo", strLit "1.0", true⟩]
      = Except.error (PyExc.other (strLit "build failed"))) :=
  ⟨errors_propagate_uncaught.2.1 initialConverter (strLit "amd64")
      (fun _ => Except.ok ()) [] 10
      (fun _ => FetchOutcome.failure (PyExc.other (strLit "boom")))
      (PyExc.other (strLit "boom")) (by omega) rfl,
   errors_propagate_uncaught.2.2.2 initialConverter (strLit "amd64")
      (fun _ => Except.error (PyExc.other (strLit "build failed"))) []
      ⟨strLit "foo", strLit "1.0", true⟩ []
      (PyExc.other (strLit "build failed")) rfl rfl⟩

/-! ## Scratch directory lifecycle (claim C9) -/

/-- C9: on every execution of `convert` — normal return or an exception
from the resolver backend or the Packager anywhere in the stream — the
scoped scratch directory acquired for the call no longer exists once the
call finishes. -/
theorem scratch_directory_removed (c : Converter) (arch : Str)
    (packager : SourcePackage → Except PyExc Unit)
    (repo0 : List Artifact) (pkgs : List SourcePackage) (scratch : Str) :
    dirExistsAfter scratch
      (convert_with_scratch c arch packager repo0 pkgs scratch).2 = false := by
  unfold convert_with_scratch dirExistsAfter
  rw [List.foldl_cons, List.foldl_append]
  simp

/-! ## Configuration errors (claim C8) -/

/-- C8: every configuration error is raised by the very setter that
received the bad value, before any conversion work: an empty name prefix,
an empty package name in a rename, an empty install prefix, an empty
alternative link or path, an empty conversion command, a repository
directory that does not exist, and an unrecognized architecture each
yield an error; and each setter's success case updates exactly its own
field, so a failed call leaves the configuration unchanged. -/
theorem configuration_errors_raise_synchronously :
    (∀ c : Converter, setNamePrefix c []
        = Except.error (strLit "Please provide a nonempty name!")) ∧
    (∀ (c : Converter) (pfx : Str), pfx ≠ [] →
      setNamePrefix c pfx = Except.ok { c with namePrefix := pfx }) ∧
    (∀ (c : Converter) (t : Str), rename_package c [] t
        = Except.error (strLit "Please provide a nonempty Python package name!")) ∧
    (∀ (c : Converter) (s : Str), s ≠ [] → rename_package c s []
        = Except.error (strLit "Please provide a nonempty Debian package name!")) ∧
    (∀ (c : Converter) (s t : Str), s ≠ [] → t ≠ [] →
      rename_package c s t = Except.ok { c with
        name_mapping := dictInsert c.name_mapping (strLower s) (strLower t) }) ∧
    (∀ c : Converter, setInstallPrefix c []
        = Except.error (strLit "Please provide a nonempty installation directory!")) ∧
    (∀ (c : Converter) (d : Str), d ≠ [] →
      setInstallPrefix c d = Except.ok { c with installPrefix := d }) ∧
    (∀ (c : Converter) (path : Str), install_alternative c [] path
        = Except.error (strLit "Please provide a nonempty name for the master link!")) ∧
    (∀ (c : Converter) (link : Str), link ≠ [] → install_alternative c link []
        = Except.error (strLit "Please provide a nonempty name for the alternative!")) ∧
    (∀ (c : Converter) (link path : Str), link ≠ [] → path ≠ [] →
      install_alternative c link path
        = Except.ok { c with alternatives := c.alternatives ++ [(link, path)] }) ∧
    (∀ (c : Converter) (cmd : Str), set_conversion_command c [] cmd
        = Except.error (strLit "Please provide a nonempty Python package name!")) ∧
    (∀ (c : Converter) (s : Str), s ≠ [] → set_conversion_command c s []
        = Except.error (strLit "Please provide a nonempty shell command!")) ∧
    (∀ (c : Converter) (s cmd : Str), s ≠ [] → cmd ≠ [] →
      set_conversion_command c s cmd = Except.ok { c with
        scripts := dictInsert c.scripts (strLower s) cmd }) ∧
    (∀ (fs : FileSystem) (c : Converter) (d : Str),
      fs.isdir (fs.abspath d) = false →
      set_repository fs c d
        = Except.error (strLit "Repository directory doesn't exist!")) ∧
    (∀ (fs : FileSystem) (c : Converter) (d : Str),
      fs.isdir (fs.abspath d) = true →
      set_repository fs c d = Except.ok { c with repository := fs.abspath d }) ∧
    (∀ u : Str, u ≠ strLit "i686" → u ≠ strLit "x86_64" →
      debian_architecture u = Except.error
        (strLit "The current architecture is not supported by py2deb!")) := by
  refine ⟨fun c => rfl, ?_, fun c t => rfl, ?_, ?_, fun c => rfl, ?_,
    fun c path => rfl, ?_, ?_, fun c cmd => rfl, ?_, ?_, ?_, ?_, ?_⟩
  · intro c pfx h
    unfold setNamePrefix
    rw [if_neg h]
  · intro c s h
    unfold rename_package
    rw [if_neg h, if_pos rfl]
  · intro c s t hs ht
    unfold rename_package
    rw [if_neg hs, if_neg ht]
  · intro c d h
    unfold setInstallPrefix
    rw [if_neg h]
  · intro c link h
    unfold install_alternative
    rw [if_neg h, if_pos rfl]
  · intro c link path hl hp
    unfold install_alternative
    rw [if_neg hl, if_neg hp]
  · intro c s h
    unfold set_conversion_command
    rw [if_neg h, if_pos rfl]
  · intro c s cmd hs hc
    unfold set_conversion_command
    rw [if_neg hs, if_neg hc]
  · intro fs c d h
    unfold set_repository
    simp [h]
  · intro fs c d h
    unfold set_repository
    simp [h]
  · intro u h1 h2
    unfold debian_architecture
    rw [if_neg h1, if_neg h2]

/-- Witness for C8: a nonexistent repository directory and an
unrecognized architecture are both rejected. -/
theorem configuration_errors_raise_synchronously_witness :
    (set_repository ⟨fun d => d, fun d => decide (d = strLit "/repo")⟩
        initialConverter (strLit "/nope")
      = Except.error (strLit "Repository directory doesn't exist!")) ∧
    (debian_architecture (strLit "sparc")
      = Except.error
          (strLit "The current architecture is not supported by py2deb!")) :=
  ⟨configuration_errors_raise_synchronously.2.2.2.2.2.2.2.2.2.2.2.2.2.1
      ⟨fun d => d, fun d => decide (d = strLit "/repo")⟩
      initialConverter (strLit "/nope") (by decide),
   configuration_errors_raise_synchronously.2.2.2.2.2.2.2.2.2.2.2.2.2.2.2
      (strLit "sparc") (by decide) (by decide)⟩

/-! ## Configuration loading (claim C10) -/

theorem configStep_some (cv : Converter) (e : Str)
    (f : Converter → Except Str Converter) :
    configStep (cv, some e) f = (cv, some e) := rfl

theorem loadPackageSection_some (cv : Converter) (e : Str)
    (sec : PackageSection) :
    loadPackageSection (cv, some e) sec = (cv, some e) := by
  rcases sec with ⟨pkg, nnp, ren, scr⟩
  rcases nnp with _ | b
  · rcases ren with _ | r <;> rcases scr with _ | s <;> rfl
  · cases b <;> rcases ren with _ | r <;> rcases scr with _ | s <;> rfl

theorem foldl_alternatives_some (L : List (Str × Str)) (cv : Converter)
    (e : Str) :
    L.foldl (fun st lp => configStep st
        (fun c1 => install_alternative c1 lp.1 lp.2)) (cv, some e)
      = (cv, some e) := by
  induction L with
  | nil => rfl
  | cons lp L ih =>
    rw [List.foldl_cons, configStep_some]
    exact ih

theorem foldl_packages_some (L : List PackageSection) (cv : Converter)
    (e : Str) :
    L.foldl loadPackageSection (cv, some e) = (cv, some e) := by
  induction L with
  | nil => rfl
  | cons sec L ih =>
    rw [List.foldl_cons, loadPackageSection_some]
    exact ih

theorem load_configuration_stops_at_error (fs : FileSystem) (c : Converter)
    (cfg : ConfigFile) (d : Str)
    (hrep : cfg.repository = some d)
    (hisdir : fs.isdir (fs.abspath d) = true)
    (hnp : cfg.namePrefix = some []) :
    load_configuration fs c cfg =
      ({ c with repository := fs.abspath d },
       some (strLit "Please provide a nonempty name!")) := by
  rcases cfg with ⟨rep, np, ip, ai, alts, pks⟩
  dsimp only at hrep hnp
  subst hrep
  subst hnp
  have h1 : configStep (c, none) (fun c1 => set_repository fs c1 d)
      = ({ c with repository := fs.abspath d }, none) := by
    simp [configStep, set_repository, hisdir]
  have h2 : configStep ({ c with repository := fs.abspath d }, none)
        (fun c1 => setNamePrefix c1 [])
      = ({ c with repository := fs.abspath d },
         some (strLit "Please provide a nonempty name!")) := by
    simp [configStep, setNamePrefix]
  unfold load_configuration
  dsimp only
  rw [h1, h2]
  cases ip <;> cases ai <;>
    simp only [configStep_some, foldl_alternatives_some, foldl_packages_some]

theorem loadPackageSection_rename_wins (st : Converter × Option Str)
    (sec : PackageSection) (r : Str)
    (hnone : st.2 = none) (hnnp : sec.noNamePrefix = some true)
    (hren : sec.rename = some r) (hpkg : sec.package ≠ []) (hr : r ≠ []) :
    dictGet (loadPackageSection st sec).1.name_mapping
        (strLower sec.package)
      = some (strLower r) := by
  rcases st with ⟨cv, err⟩
  dsimp only at hnone
  subst hnone
  rcases sec with ⟨pkg, nnp, ren, scr⟩
  dsimp only at hnnp hren hpkg ⊢
  subst hnnp
  subst hren
  have h1 : configStep (cv, none) (fun c1 => rename_package c1 pkg pkg)
      = ({ cv with name_mapping :=
            dictInsert cv.name_mapping (strLower pkg) (strLower pkg) },
         none) := by
    simp [configStep, rename_package, hpkg]
  have h2 : configStep
        ({ cv with name_mapping :=
            dictInsert cv.name_mapping (strLower pkg) (strLower pkg) },
         none)
        (fun c1 => rename_package c1 pkg r)
      = ({ cv with name_mapping :=
            dictInsert (dictInsert cv.name_mapping (strLower pkg)
              (strLower pkg)) (strLower pkg) (strLower r) },
         none) := by
    simp [configStep, rename_package, hpkg, hr]
  unfold loadPackageSection
  dsimp only
  rw [h1, h2]
  cases scr with
  | none => exact dictGet_dictInsert _ _ _
  | some s =>
    have h3 : ∀ cv2 : Converter,
        (configStep (cv2, none)
          (fun c1 => set_conversion_command c1 pkg s)).1.name_mapping
          = cv2.name_mapping := by
      intro cv2
      unfold configStep set_conversion_command
      split_ifs <;> rfl
    rw [h3]
    exact dictGet_dictInsert _ _ _

/-- C10: `load_configuration` is not atomic — settings are applied
immediately, one setter at a time, in the fixed source order, so when the
name-prefix value is invalid the already-applied repository setting
remains in effect while everything after the failure stays untouched; and
within a `package:` section a truthy `no-name-prefix` is realized as the
override (package, package) and a `rename` in the same section is applied
after it through the same setter, replacing it. -/
theorem load_configuration_not_atomic :
    (∀ (fs : FileSystem) (c : Converter) (cfg : ConfigFile) (d : Str),
      cfg.repository = some d →
      fs.isdir (fs.abspath d) = true →
      cfg.namePrefix = some [] →
      load_configuration fs c cfg =
        ({ c with repository := fs.abspath d },
         some (strLit "Please provide a nonempty name!"))) ∧
    (∀ (st : Converter × Option Str) (sec : PackageSection) (r : Str),
      st.2 = none → sec.noNamePrefix = some true →
      sec.rename = some r → sec.package ≠ [] → r ≠ [] →
      dictGet (loadPackageSection st sec).1.name_mapping
          (strLower sec.package)
        = some (strLower r)) :=
  ⟨load_configuration_stops_at_error, loadPackageSection_rename_wins⟩

/-- Witness for C10: a configuration with a valid repository, an empty
name prefix, and a later install prefix — the repository sticks, the rest
does not; and a section combining `no-name-prefix` with `rename`. -/
theorem load_configuration_not_atomic_witness :
    (load_configuration ⟨fun d => d, fun d => decide (d = strLit "/repo")⟩
        initialConverter
        ⟨some (strLit "/repo"), some [], some (strLit "/opt"), some true,
         [(strLit "/usr/bin/x", strLit "/opt/bin/x")], []⟩ =
      ({ initialConverter with repository := strLit "/repo" },
       some (strLit "Please provide a nonempty name!"))) ∧
    (dictGet (loadPackageSection (initialConverter, none)
          ⟨strLit "foo", some true, some (strLit "custom-foo"), none⟩).1.name_mapping
        (strLower (strLit "foo"))
      = some (strLower (strLit "custom-foo"))) :=
  ⟨load_configuration_not_atomic.1
      ⟨fun d => d, fun d => decide (d = strLit "/repo")⟩ initialConverter
      ⟨some (strLit "/repo"), some [], some (strLit "/opt"), some true,
       [(strLit "/usr/bin/x", strLit "/opt/bin/x")], []⟩
      (strLit "/repo") rfl (by decide) rfl,
   load_configuration_not_atomic.2 (initialConverter, none)
      ⟨strLit "foo", some true, some (strLit "custom-foo"), none⟩
      (strLit "custom-foo") rfl rfl rfl (by decide) (by decide)⟩
